import Mathlib

/-!
Shallow embedding of the lexer in `src/src/lex_luthor.rs` (struct `LexLuthor`)
together with the token type of `src/src/token.rs`.

The Rust scanner keeps a `String` source buffer, a character cursor
(`position` counts Unicode scalar values handed out by `chars().nth`,
while `source_code.len()` is the UTF-8 byte length), 1-based `line`,
a `column` that starts at 0, and the most recently read `character`
(`'\0'` once input is exhausted).  We model the buffer as the list of its
characters plus an explicit byte-length function, and every method as a
pure state transformer.

The three `while` loops of the source (`skip_whitespace`, the identifier
run of `read_identifier_or_keyword`, and the scan loop of `lex`) are
expressed with an explicit fuel argument so that every definition is
structurally recursive and kernel-computable; for each loop a fuel bound
is fixed at the single call site and a fuel-irrelevance lemma plus a
loop-equation lemma below certify that the bound is large enough, i.e.
that the fueled definition satisfies exactly the defining equation of the
Rust `while` loop.
-/

namespace LexLuthorSpec

/-- Position of the last character consumed for a token or error
(`SourceSpan` of `src/src/source_code.rs`, used by both source files). -/
structure SourceSpan where
  line : Nat
  column : Nat
deriving DecidableEq, Repr

/-- Token type. `src/src/token.rs` as committed lacks the `Bang`,
`Identifier` and keyword variants that `src/src/lex_luthor.rs` and its
inline tests use (`Token::Bang`, `Token::Identifier`, `Token::Program`, …);
those variants are reproduced here from the lexer's own uses and from the
spec's keyword list, alongside the variants present in `token.rs`. -/
inductive Token where
  | LeftBrace (span : SourceSpan)
  | RightBrace (span : SourceSpan)
  | LeftBracket (span : SourceSpan)
  | RightBracket (span : SourceSpan)
  | Comma (span : SourceSpan)
  | Plus (span : SourceSpan)
  | Minus (span : SourceSpan)
  | Star (span : SourceSpan)
  | Slash (span : SourceSpan)
  | StarStar (span : SourceSpan)
  | Percent (span : SourceSpan)
  | PercentPercent (span : SourceSpan)
  | Equal (span : SourceSpan)
  | NotEqual (span : SourceSpan)
  | LessThan (span : SourceSpan)
  | GreaterThan (span : SourceSpan)
  | LessThanOrEqual (span : SourceSpan)
  | GreaterThanOrEqual (span : SourceSpan)
  | Ampersand (span : SourceSpan)
  | Pipe (span : SourceSpan)
  | Not (span : SourceSpan)
  | Bang (span : SourceSpan)
  | LeftParen (span : SourceSpan)
  | RightParen (span : SourceSpan)
  | Identifier (text : String) (span : SourceSpan)
  | Program (span : SourceSpan)
  | Define (span : SourceSpan)
  | Variable (span : SourceSpan)
  | Is (span : SourceSpan)
  | Natural (span : SourceSpan)
  | Real (span : SourceSpan)
  | Char (span : SourceSpan)
  | Boolean (span : SourceSpan)
  | Execute (span : SourceSpan)
  | Set (span : SourceSpan)
  | Get (span : SourceSpan)
  | To (span : SourceSpan)
  | Put (span : SourceSpan)
  | Loop (span : SourceSpan)
  | While (span : SourceSpan)
  | Do (span : SourceSpan)
  | True (span : SourceSpan)
  | False (span : SourceSpan)
  | Eof
deriving DecidableEq, Repr

/-- Diagnostics of `lex_luthor.rs` (enum `LexLuthorError`). -/
inductive LexLuthorError where
  | UnexpectedCharacter (sourceSpan : SourceSpan) (message : String)
  | InvalidIdentifier (sourceSpan : SourceSpan) (message : String)
deriving DecidableEq, Repr

/-- Scanner state (struct `LexLuthor`): the source buffer as its character
list, the cursor fields, and the most recently read character. -/
structure LexLuthor where
  sourceCode : List Char
  line : Nat
  column : Nat
  position : Nat
  character : Char
deriving Repr

/-- UTF-8 byte length of a character list; `source_code.len()` in Rust. -/
def utf8Len (l : List Char) : Nat :=
  l.foldl (fun n c => n + c.utf8Size) 0

/-- Rust `char::is_ascii_whitespace`: space, tab, newline, form feed,
carriage return. -/
def isAsciiWhitespace (c : Char) : Bool :=
  c = ' ' || c = '\t' || c = '\n' || c = '\x0c' || c = '\r'

/-- Rust `char::is_alphabetic`. The Rust predicate is Unicode `Alphabetic`;
on the ASCII range (the only characters classified as alphabetic by any
input considered in the theorems below) it coincides with `Char.isAlpha`. -/
def isAlphabetic (c : Char) : Bool :=
  c.isAlpha

/-- Condition of the identifier run loop in `read_identifier_or_keyword`
(line 83): `is_digit(10) || is_alphabetic() || == '_'`. -/
def isIdentifierChar (c : Char) : Bool :=
  c.isDigit || isAlphabetic c || c = '_'

/-- Characters that match no lexical rule of `next_token`: not one of the
eighteen literal dispatch characters (lines 125-171) and not an identifier
start (alphabetic or `_`, line 172).  Exactly these characters reach the
catch-all error arm (lines 176-182). -/
def isUnrecognizedCharacter (c : Char) : Bool :=
  !(c = '{' || c = '}' || c = '[' || c = ']' || c = ',' || c = '+' ||
    c = '-' || c = '/' || c = '*' || c = '%' || c = '=' || c = '!' ||
    c = '<' || c = '>' || c = '&' || c = '|' || c = '(' || c = ')' ||
    isAlphabetic c || c = '_')

/-- `current_source_span` (line 40). -/
def currentSourceSpan (lx : LexLuthor) : SourceSpan :=
  ⟨lx.line, lx.column⟩

/-- `has_characters_to_lex` (line 47): `position <= source_code.len()`,
a character-count cursor compared against the byte length. -/
def hasCharactersToLex (lx : LexLuthor) : Bool :=
  lx.position ≤ utf8Len lx.sourceCode

/-- `peek` (line 51): `source_code.chars().nth(position)`. -/
def peek (lx : LexLuthor) : Option Char :=
  lx.sourceCode.get? lx.position

/-- `next_character_is` (line 55). -/
def nextCharacterIs (lx : LexLuthor) (expected : Char) : Bool :=
  match peek lx with
  | none => false
  | some c => c = expected

/-- `read_character` (line 62): load the character at `position` (or the
null sentinel past the end), bump `column`, handle newlines, and always
bump `position` — also past end of input. -/
def readCharacter (lx : LexLuthor) : LexLuthor :=
  match lx.sourceCode.get? lx.position with
  | none =>
    { lx with character := '\x00', position := lx.position + 1 }
  | some c =>
    if c = '\n' then
      { lx with character := c, line := lx.line + 1, column := 0,
                position := lx.position + 1 }
    else
      { lx with character := c, column := lx.column + 1,
                position := lx.position + 1 }

/-- Fueled form of the `skip_whitespace` loop (line 115). -/
def skipWhitespaceF : Nat → LexLuthor → LexLuthor
  | 0, lx => lx
  | fuel + 1, lx =>
    if isAsciiWhitespace lx.character then
      skipWhitespaceF fuel (readCharacter lx)
    else
      lx

/-- `skip_whitespace` (line 115). The loop reads one character per
iteration and stops at the latest one read past the end of the buffer, so
`sourceCode.length + 2` iterations always suffice
(`skipWhitespace_loop_eq` below certifies the bound). -/
def skipWhitespace (lx : LexLuthor) : LexLuthor :=
  skipWhitespaceF (lx.sourceCode.length + 2) lx

/-- Fueled form of the identifier run loop (line 83). -/
def readIdentifierRunF : Nat → LexLuthor → LexLuthor
  | 0, lx => lx
  | fuel + 1, lx =>
    if isIdentifierChar lx.character then
      readIdentifierRunF fuel (readCharacter lx)
    else
      lx

/-- The `while` loop of `read_identifier_or_keyword` (line 83), with the
same fuel bound as `skipWhitespace` (certified by
`readIdentifierRun_loop_eq` below). -/
def readIdentifierRun (lx : LexLuthor) : LexLuthor :=
  readIdentifierRunF (lx.sourceCode.length + 2) lx

/-- Validation loop of `read_identifier_or_keyword` (lines 98-110): the
first character of the candidate that is a digit or `_` and is not
immediately followed by an alphabetic character, if any.
`chars().nth(index + 1)` is the successor element, i.e. the head of the
rest of the list. -/
def identCheck : List Char → Option Char
  | [] => none
  | c :: rest =>
    if (c.isDigit || c = '_') &&
        !(match rest.head? with
          | some d => isAlphabetic d
          | none => false) then
      some c
    else
      identCheck rest

/-- Violation test of the identifier-shape rule for one character and its
successor, exactly the condition of lines 99-100: the character is a digit
or `_` and the successor is not an alphabetic character (or is absent). -/
def violatesIdentifierShape (c : Char) (next : Option Char) : Bool :=
  (c.isDigit || c = '_') &&
    !(match next with
      | some d => isAlphabetic d
      | none => false)

/-- Each character of a list paired with its successor. -/
def nextOf : List Char → List (Char × Option Char)
  | [] => []
  | c :: rest => (c, rest.head?) :: nextOf rest

/-- Spec-side formulation of the identifier-shape check, following §4.3 of
the spec word for word: scan the candidate left to right and report the
first character that is a digit or `_` and is not immediately followed,
within the same run, by an alphabetic character.  `identCheck` (the
embedding of the code's validation loop) is proved equal to this function
in `identCheck_eq_spec`. -/
def specFirstViolation (l : List Char) : Option Char :=
  ((nextOf l).find? fun p => violatesIdentifierShape p.1 p.2).map Prod.fst

/-- Modelled from the spec: `token_from_identifier_or_keyword` is called by
`next_token` (line 174) but its definition is not under `src/`; the spec
(§3, §4.3) fixes it as an exact, case-sensitive match of the candidate text
against the 19 reserved words, each yielding its dedicated keyword token,
and anything else yielding `Identifier(text, span)`. -/
def tokenFromIdentifierOrKeyword (text : String) (span : SourceSpan) : Token :=
  match text with
  | "program" => Token.Program span
  | "define" => Token.Define span
  | "not" => Token.Not span
  | "variable" => Token.Variable span
  | "is" => Token.Is span
  | "natural" => Token.Natural span
  | "real" => Token.Real span
  | "char" => Token.Char span
  | "boolean" => Token.Boolean span
  | "execute" => Token.Execute span
  | "set" => Token.Set span
  | "get" => Token.Get span
  | "to" => Token.To span
  | "put" => Token.Put span
  | "loop" => Token.Loop span
  | "while" => Token.While span
  | "do" => Token.Do span
  | "true" => Token.True span
  | "false" => Token.False span
  | _ => Token.Identifier text span

/-- `read_identifier_or_keyword` (line 80): record `start = position - 1`,
consume the run, extract `chars().skip(start).take(position - start)`,
accept any candidate of byte length 1, otherwise run the shape check.
The Rust method mutates `self` and returns `Result<String, _>`; here the
state is returned alongside the result. -/
def readIdentifierOrKeyword (lx : LexLuthor) :
    Except LexLuthorError String × LexLuthor :=
  let start := lx.position - 1
  let lx2 := readIdentifierRun lx
  let text : String :=
    String.mk ((lx2.sourceCode.drop start).take (lx2.position - start))
  if utf8Len text.data == 1 then
    (Except.ok text, lx2)
  else
    match identCheck text.data with
    | some c =>
      (Except.error (LexLuthorError.InvalidIdentifier
          (currentSourceSpan lx2)
          (text ++ " is not a valid identifier, " ++ c.toString
            ++ " must be followed by a letter")), lx2)
    | none => (Except.ok text, lx2)

/-- Dispatch of `next_token` (lines 124-187): the `match` over the current
character, with — on the token paths only — the single trailing
`read_character` (line 185).  The `'!' if next_character_is('=')` arm
(line 150) performs no inner `read_character`, unlike the `*`, `%`, `<`,
`>` arms; both error paths return early without the trailing read. -/
def nextTokenAux (lx : LexLuthor) : Except LexLuthorError Token × LexLuthor :=
  match lx.character with
  | '{' => (Except.ok (Token.LeftBrace (currentSourceSpan lx)), readCharacter lx)
  | '}' => (Except.ok (Token.RightBrace (currentSourceSpan lx)), readCharacter lx)
  | '[' => (Except.ok (Token.LeftBracket (currentSourceSpan lx)), readCharacter lx)
  | ']' => (Except.ok (Token.RightBracket (currentSourceSpan lx)), readCharacter lx)
  | ',' => (Except.ok (Token.Comma (currentSourceSpan lx)), readCharacter lx)
  | '+' => (Except.ok (Token.Plus (currentSourceSpan lx)), readCharacter lx)
  | '-' => (Except.ok (Token.Minus (currentSourceSpan lx)), readCharacter lx)
  | '/' => (Except.ok (Token.Slash (currentSourceSpan lx)), readCharacter lx)
  | '*' =>
    if nextCharacterIs lx '*' then
      let lx1 := readCharacter lx
      (Except.ok (Token.StarStar (currentSourceSpan lx1)), readCharacter lx1)
    else
      (Except.ok (Token.Star (currentSourceSpan lx)), readCharacter lx)
  | '%' =>
    if nextCharacterIs lx '%' then
      let lx1 := readCharacter lx
      (Except.ok (Token.PercentPercent (currentSourceSpan lx1)), readCharacter lx1)
    else
      (Except.ok (Token.Percent (currentSourceSpan lx)), readCharacter lx)
  | '=' => (Except.ok (Token.Equal (currentSourceSpan lx)), readCharacter lx)
  | '!' =>
    if nextCharacterIs lx '=' then
      (Except.ok (Token.NotEqual (currentSourceSpan lx)), readCharacter lx)
    else
      (Except.ok (Token.Bang (currentSourceSpan lx)), readCharacter lx)
  | '<' =>
    if nextCharacterIs lx '=' then
      let lx1 := readCharacter lx
      (Except.ok (Token.LessThanOrEqual (currentSourceSpan lx1)), readCharacter lx1)
    else
      (Except.ok (Token.LessThan (currentSourceSpan lx)), readCharacter lx)
  | '>' =>
    if nextCharacterIs lx '=' then
      let lx1 := readCharacter lx
      (Except.ok (Token.GreaterThanOrEqual (currentSourceSpan lx1)), readCharacter lx1)
    else
      (Except.ok (Token.GreaterThan (currentSourceSpan lx)), readCharacter lx)
  | '&' => (Except.ok (Token.Ampersand (currentSourceSpan lx)), readCharacter lx)
  | '|' => (Except.ok (Token.Pipe (currentSourceSpan lx)), readCharacter lx)
  | '(' => (Except.ok (Token.LeftParen (currentSourceSpan lx)), readCharacter lx)
  | ')' => (Except.ok (Token.RightParen (currentSourceSpan lx)), readCharacter lx)
  | _ =>
    -- the binder of the Rust catch-all arms (lines 172, 176) is the
    -- scrutinee `self.character` itself, read before any advance
    if isAlphabetic lx.character || lx.character = '_' then
      match readIdentifierOrKeyword lx with
      | (Except.error e, lx1) => (Except.error e, lx1)
      | (Except.ok text, lx1) =>
        (Except.ok (tokenFromIdentifierOrKeyword text (currentSourceSpan lx1)),
          readCharacter lx1)
    else
      let lx1 := readCharacter lx
      (Except.error (LexLuthorError.UnexpectedCharacter
          (currentSourceSpan lx1)
          ("unexpected character " ++ lx.character.toString)), lx1)

/-- `next_token` (line 121): `skip_whitespace` (line 122) followed by the
character dispatch. -/
def nextToken (lx : LexLuthor) : Except LexLuthorError Token × LexLuthor :=
  nextTokenAux (skipWhitespace lx)

/-- Fueled form of the scan loop of `lex` (lines 194-199). -/
def lexLoopF : Nat → LexLuthor → List Token × List LexLuthorError
  | 0, _ => ([], [])
  | fuel + 1, lx =>
    if hasCharactersToLex lx then
      match nextToken lx with
      | (Except.ok token, lx1) =>
        let rest := lexLoopF fuel lx1
        (token :: rest.1, rest.2)
      | (Except.error e, lx1) =>
        let rest := lexLoopF fuel lx1
        (rest.1, e :: rest.2)
    else
      ([], [])

/-- `LexLuthor::new` (line 26): initial fields, then one `read_character`. -/
def LexLuthor.new (sourceCode : String) : LexLuthor :=
  readCharacter
    { sourceCode := sourceCode.data, line := 1, column := 0,
      position := 0, character := '\x00' }

/-- `lex` (line 190): run the scan loop, then return every collected error
if any, otherwise the tokens with the `Eof` sentinel appended.  Each call
to `next_token` strictly advances `position` and the loop runs while
`position ≤ utf8Len sourceCode`, with `position = 1` after `new`, so
`utf8Len sourceCode + 1` iterations always suffice (`lexLoopF_stable` and
`lex_loop_eq` below certify the bound). -/
def lex (s : String) : Except (List LexLuthorError) (List Token) :=
  let lx := LexLuthor.new s
  let r := lexLoopF (utf8Len lx.sourceCode + 1) lx
  if r.2.isEmpty then
    Except.ok (r.1 ++ [Token.Eof])
  else
    Except.error r.2

/-! ### Cursor lemmas -/

@[simp]
theorem readCharacter_sourceCode (lx : LexLuthor) :
    (readCharacter lx).sourceCode = lx.sourceCode := by
  unfold readCharacter
  split
  · rfl
  · split <;> rfl

@[simp]
theorem readCharacter_position (lx : LexLuthor) :
    (readCharacter lx).position = lx.position + 1 := by
  unfold readCharacter
  split
  · rfl
  · split <;> rfl

theorem readCharacter_character_of_none (lx : LexLuthor)
    (h : lx.sourceCode.get? lx.position = none) :
    (readCharacter lx).character = '\x00' := by
  unfold readCharacter
  rw [h]

theorem position_lt_of_get (lx : LexLuthor) (c : Char)
    (h : lx.sourceCode.get? lx.position = some c) :
    lx.position < lx.sourceCode.length := by
  by_contra hn
  push_neg at hn
  rw [List.get?_eq_none.mpr hn] at h
  cases h

/-! ### The `skip_whitespace` loop: monotonicity, fuel irrelevance, and the
loop equation certifying the fuel bound used in `skipWhitespace`. -/

theorem skipWhitespaceF_sourceCode :
    ∀ (f : Nat) (lx : LexLuthor),
      (skipWhitespaceF f lx).sourceCode = lx.sourceCode := by
  intro f
  induction f with
  | zero => intro lx; rfl
  | succ g ih =>
    intro lx
    unfold skipWhitespaceF
    split
    · rw [ih, readCharacter_sourceCode]
    · rfl

theorem skipWhitespaceF_position_le :
    ∀ (f : Nat) (lx : LexLuthor),
      lx.position ≤ (skipWhitespaceF f lx).position := by
  intro f
  induction f with
  | zero => intro lx; exact Nat.le_refl _
  | succ g ih =>
    intro lx
    unfold skipWhitespaceF
    split
    · have := ih (readCharacter lx)
      simp only [readCharacter_position] at this
      omega
    · exact Nat.le_refl _

theorem skipWhitespaceF_of_not_ws (f : Nat) (lx : LexLuthor)
    (h : isAsciiWhitespace lx.character = false) :
    skipWhitespaceF f lx = lx := by
  cases f with
  | zero => rfl
  | succ g => simp [skipWhitespaceF, h]

theorem skipWhitespaceF_stable :
    ∀ (f₁ f₂ : Nat) (lx : LexLuthor),
      lx.sourceCode.length - lx.position + 2 ≤ f₁ →
      lx.sourceCode.length - lx.position + 2 ≤ f₂ →
      skipWhitespaceF f₁ lx = skipWhitespaceF f₂ lx := by
  intro f₁
  induction f₁ with
  | zero => intro f₂ lx h1 h2; omega
  | succ g ih =>
    intro f₂ lx h1 h2
    obtain ⟨f₂', rfl⟩ : ∃ f₂', f₂ = f₂' + 1 := ⟨f₂ - 1, by omega⟩
    cases hw : isAsciiWhitespace lx.character with
    | false =>
      rw [skipWhitespaceF_of_not_ws _ _ hw, skipWhitespaceF_of_not_ws _ _ hw]
    | true =>
      show skipWhitespaceF (g + 1) lx = skipWhitespaceF (f₂' + 1) lx
      unfold skipWhitespaceF
      rw [if_pos hw, if_pos hw]
      cases hget : lx.sourceCode.get? lx.position with
      | none =>
        have hnw : isAsciiWhitespace (readCharacter lx).character = false := by
          rw [readCharacter_character_of_none _ hget]
          decide
        rw [skipWhitespaceF_of_not_ws _ _ hnw, skipWhitespaceF_of_not_ws _ _ hnw]
      | some c =>
        have hlt := position_lt_of_get lx c hget
        apply ih
        · simp only [readCharacter_sourceCode, readCharacter_position]; omega
        · simp only [readCharacter_sourceCode, readCharacter_position]; omega

/-- The fueled `skipWhitespace` satisfies exactly the defining equation of
the Rust `while` loop of `skip_whitespace`, so its fuel bound is exact. -/
theorem skipWhitespace_loop_eq (lx : LexLuthor) :
    skipWhitespace lx =
      if isAsciiWhitespace lx.character then
        skipWhitespace (readCharacter lx)
      else lx := by
  cases hw : isAsciiWhitespace lx.character with
  | false =>
    simp only [hw, if_neg Bool.false_ne_true]
    exact skipWhitespaceF_of_not_ws _ _ hw
  | true =>
    simp only [hw, if_pos rfl]
    show skipWhitespaceF (lx.sourceCode.length + 2) lx = _
    unfold skipWhitespaceF
    rw [if_pos hw]
    unfold skipWhitespace
    cases hget : lx.sourceCode.get? lx.position with
    | none =>
      have hnw : isAsciiWhitespace (readCharacter lx).character = false := by
        rw [readCharacter_character_of_none _ hget]
        decide
      rw [skipWhitespaceF_of_not_ws _ _ hnw, skipWhitespaceF_of_not_ws _ _ hnw]
      simp
    | some c =>
      have hlt := position_lt_of_get lx c hget
      apply skipWhitespaceF_stable
      · simp only [readCharacter_sourceCode, readCharacter_position]; omega
      · simp only [readCharacter_sourceCode, readCharacter_position]; omega

/-! ### The identifier run loop: the same development. -/

theorem readIdentifierRunF_sourceCode :
    ∀ (f : Nat) (lx : LexLuthor),
      (readIdentifierRunF f lx).sourceCode = lx.sourceCode := by
  intro f
  induction f with
  | zero => intro lx; rfl
  | succ g ih =>
    intro lx
    unfold readIdentifierRunF
    split
    · rw [ih, readCharacter_sourceCode]
    · rfl

theorem readIdentifierRunF_position_le :
    ∀ (f : Nat) (lx : LexLuthor),
      lx.position ≤ (readIdentifierRunF f lx).position := by
  intro f
  induction f with
  | zero => intro lx; exact Nat.le_refl _
  | succ g ih =>
    intro lx
    unfold readIdentifierRunF
    split
    · have := ih (readCharacter lx)
      simp only [readCharacter_position] at this
      omega
    · exact Nat.le_refl _

theorem readIdentifierRunF_of_not_ident (f : Nat) (lx : LexLuthor)
    (h : isIdentifierChar lx.character = false) :
    readIdentifierRunF f lx = lx := by
  cases f with
  | zero => rfl
  | succ g => simp [readIdentifierRunF, h]

theorem readIdentifierRunF_stable :
    ∀ (f₁ f₂ : Nat) (lx : LexLuthor),
      lx.sourceCode.length - lx.position + 2 ≤ f₁ →
      lx.sourceCode.length - lx.position + 2 ≤ f₂ →
      readIdentifierRunF f₁ lx = readIdentifierRunF f₂ lx := by
  intro f₁
  induction f₁ with
  | zero => intro f₂ lx h1 h2; omega
  | succ g ih =>
    intro f₂ lx h1 h2
    obtain ⟨f₂', rfl⟩ : ∃ f₂', f₂ = f₂' + 1 := ⟨f₂ - 1, by omega⟩
    cases hw : isIdentifierChar lx.character with
    | false =>
      rw [readIdentifierRunF_of_not_ident _ _ hw,
        readIdentifierRunF_of_not_ident _ _ hw]
    | true =>
      show readIdentifierRunF (g + 1) lx = readIdentifierRunF (f₂' + 1) lx
      unfold readIdentifierRunF
      rw [if_pos hw, if_pos hw]
      cases hget : lx.sourceCode.get? lx.position with
      | none =>
        have hnw : isIdentifierChar (readCharacter lx).character = false := by
          rw [readCharacter_character_of_none _ hget]
          decide
        rw [readIdentifierRunF_of_not_ident _ _ hnw,
          readIdentifierRunF_of_not_ident _ _ hnw]
      | some c =>
        have hlt := position_lt_of_get lx c hget
        apply ih
        · simp only [readCharacter_sourceCode, readCharacter_position]; omega
        · simp only [readCharacter_sourceCode, readCharacter_position]; omega

/-- The fueled `readIdentifierRun` satisfies exactly the defining equation
of the identifier `while` loop of `read_identifier_or_keyword`. -/
theorem readIdentifierRun_loop_eq (lx : LexLuthor) :
    readIdentifierRun lx =
      if isIdentifierChar lx.character then
        readIdentifierRun (readCharacter lx)
      else lx := by
  cases hw : isIdentifierChar lx.character with
  | false =>
    simp only [hw, if_neg Bool.false_ne_true]
    exact readIdentifierRunF_of_not_ident _ _ hw
  | true =>
    simp only [hw, if_pos rfl]
    show readIdentifierRunF (lx.sourceCode.length + 2) lx = _
    unfold readIdentifierRunF
    rw [if_pos hw]
    unfold readIdentifierRun
    cases hget : lx.sourceCode.get? lx.position with
    | none =>
      have hnw : isIdentifierChar (readCharacter lx).character = false := by
        rw [readCharacter_character_of_none _ hget]
        decide
      rw [readIdentifierRunF_of_not_ident _ _ hnw,
        readIdentifierRunF_of_not_ident _ _ hnw]
      simp
    | some c =>
      have hlt := position_lt_of_get lx c hget
      apply readIdentifierRunF_stable
      · simp only [readCharacter_sourceCode, readCharacter_position]; omega
      · simp only [readCharacter_sourceCode, readCharacter_position]; omega

/-! ### `next_token`: state evolution and the shape of produced tokens. -/

theorem skipWhitespace_sourceCode (lx : LexLuthor) :
    (skipWhitespace lx).sourceCode = lx.sourceCode :=
  skipWhitespaceF_sourceCode _ _

theorem skipWhitespace_position_le (lx : LexLuthor) :
    lx.position ≤ (skipWhitespace lx).position :=
  skipWhitespaceF_position_le _ _

theorem readIdentifierRun_sourceCode (lx : LexLuthor) :
    (readIdentifierRun lx).sourceCode = lx.sourceCode :=
  readIdentifierRunF_sourceCode _ _

theorem readIdentifierRun_position_lt (lx : LexLuthor)
    (h : isIdentifierChar lx.character = true) :
    lx.position < (readIdentifierRun lx).position := by
  show lx.position < (readIdentifierRunF (lx.sourceCode.length + 1 + 1) lx).position
  unfold readIdentifierRunF
  rw [if_pos h]
  have := readIdentifierRunF_position_le (lx.sourceCode.length + 1) (readCharacter lx)
  simp only [readCharacter_position] at this
  omega

theorem readIdentifierOrKeyword_snd (lx : LexLuthor) :
    (readIdentifierOrKeyword lx).2 = readIdentifierRun lx := by
  unfold readIdentifierOrKeyword
  dsimp only
  split
  · rfl
  · split <;> rfl

theorem nextTokenAux_state (lx : LexLuthor) :
    ((nextTokenAux lx).2).sourceCode = lx.sourceCode ∧
      lx.position < ((nextTokenAux lx).2).position := by
  unfold nextTokenAux
  split
  all_goals try ((constructor <;>
    (dsimp only; simp only [readCharacter_sourceCode, readCharacter_position])) <;>
      (first | rfl | omega))
  all_goals try split
  all_goals try ((constructor <;>
    (dsimp only; simp only [readCharacter_sourceCode, readCharacter_position])) <;>
      (first | rfl | omega))
  all_goals try split
  -- the two branches of the identifier arm remain
  · rename_i hcond xs e lx1 heq2
    have hsnd : lx1 = readIdentifierRun lx := by
      have h := readIdentifierOrKeyword_snd lx
      rw [heq2] at h
      exact h
    have hident : isIdentifierChar lx.character = true := by
      simp only [isIdentifierChar, Bool.or_eq_true] at hcond ⊢
      tauto
    have hlt := readIdentifierRun_position_lt lx hident
    constructor
    · show lx1.sourceCode = lx.sourceCode
      rw [hsnd, readIdentifierRun_sourceCode]
    · show lx.position < lx1.position
      rw [hsnd]
      exact hlt
  · rename_i hcond xs text lx1 heq2
    have hsnd : lx1 = readIdentifierRun lx := by
      have h := readIdentifierOrKeyword_snd lx
      rw [heq2] at h
      exact h
    have hident : isIdentifierChar lx.character = true := by
      simp only [isIdentifierChar, Bool.or_eq_true] at hcond ⊢
      tauto
    have hlt := readIdentifierRun_position_lt lx hident
    constructor
    · show (readCharacter lx1).sourceCode = lx.sourceCode
      rw [readCharacter_sourceCode, hsnd, readIdentifierRun_sourceCode]
    · show lx.position < (readCharacter lx1).position
      rw [readCharacter_position, hsnd]
      omega

theorem nextToken_state (lx : LexLuthor) :
    ((nextToken lx).2).sourceCode = lx.sourceCode ∧
      lx.position < ((nextToken lx).2).position := by
  obtain ⟨h1, h2⟩ := nextTokenAux_state (skipWhitespace lx)
  refine ⟨?_, ?_⟩
  · show ((nextTokenAux (skipWhitespace lx)).2).sourceCode = lx.sourceCode
    rw [h1, skipWhitespace_sourceCode]
  · exact Nat.lt_of_le_of_lt (skipWhitespace_position_le lx) h2

theorem tokenFromIdentifierOrKeyword_ne_eof (text : String) (sp : SourceSpan) :
    tokenFromIdentifierOrKeyword text sp ≠ Token.Eof := by
  unfold tokenFromIdentifierOrKeyword
  split <;> (intro hc; cases hc)

theorem nextTokenAux_ne_eof (lx : LexLuthor) (t : Token)
    (h : (nextTokenAux lx).1 = Except.ok t) : t ≠ Token.Eof := by
  unfold nextTokenAux at h
  split at h
  all_goals try split at h
  all_goals try split at h
  all_goals try (dsimp only at h)
  all_goals first
    | (injection h with h2; subst h2; intro hc; cases hc)
    | injection h
  -- the identifier arm, where `split at h` has already reduced the
  -- hypothesis to an equation for the produced token
  rename_i aeq
  subst aeq
  exact tokenFromIdentifierOrKeyword_ne_eof _ _

theorem nextToken_ne_eof (lx : LexLuthor) (t : Token)
    (h : (nextToken lx).1 = Except.ok t) : t ≠ Token.Eof :=
  nextTokenAux_ne_eof _ _ h

/-! ### The scan loop of `lex`: the `Eof` sentinel is never produced by
`next_token`, fuel irrelevance, and the loop equation. -/

theorem lexLoopF_eof_not_mem :
    ∀ (f : Nat) (lx : LexLuthor), Token.Eof ∉ (lexLoopF f lx).1 := by
  intro f
  induction f with
  | zero => intro lx; simp [lexLoopF]
  | succ g ih =>
    intro lx
    unfold lexLoopF
    rcases hnt : nextToken lx with ⟨res, lx1⟩
    cases res with
    | ok token =>
      split
      · dsimp only
        intro hmem
        rcases List.mem_cons.mp hmem with h | h
        · exact nextToken_ne_eof lx token (by rw [hnt]) h.symm
        · exact ih lx1 h
      · simp
    | error e =>
      split
      · dsimp only
        exact ih lx1
      · simp

theorem lexLoopF_stable :
    ∀ (f₁ f₂ : Nat) (lx : LexLuthor),
      utf8Len lx.sourceCode + 1 - lx.position ≤ f₁ →
      utf8Len lx.sourceCode + 1 - lx.position ≤ f₂ →
      lexLoopF f₁ lx = lexLoopF f₂ lx := by
  intro f₁
  induction f₁ with
  | zero =>
    intro f₂ lx h1 h2
    have hc : hasCharactersToLex lx = false := by
      simp only [hasCharactersToLex, decide_eq_false_iff_not]
      omega
    cases f₂ with
    | zero => rfl
    | succ g2 => simp [lexLoopF, hc]
  | succ g ih =>
    intro f₂ lx h1 h2
    cases hc : hasCharactersToLex lx with
    | false =>
      cases f₂ with
      | zero => simp [lexLoopF, hc]
      | succ g2 => simp [lexLoopF, hc]
    | true =>
      have hle : lx.position ≤ utf8Len lx.sourceCode := by
        have := of_decide_eq_true hc
        exact this
      obtain ⟨g2, rfl⟩ : ∃ g2, f₂ = g2 + 1 := ⟨f₂ - 1, by omega⟩
      show lexLoopF (g + 1) lx = lexLoopF (g2 + 1) lx
      unfold lexLoopF
      rw [if_pos hc, if_pos hc]
      rcases hnt : nextToken lx with ⟨res, lx1⟩
      have hst := nextToken_state lx
      rw [hnt] at hst
      dsimp only at hst
      have hrec := ih g2 lx1 (by rw [hst.1]; omega) (by rw [hst.1]; omega)
      cases res <;> dsimp only <;> rw [hrec]

/-- The fueled scan loop satisfies the defining equation of the Rust scan
loop of `lex` at the fuel bound used by `lex`, certifying that the fueled
loop scans the whole input exactly as the `while` loop does. -/
theorem lex_loop_eq (lx : LexLuthor) :
    lexLoopF (utf8Len lx.sourceCode + 1) lx =
      if hasCharactersToLex lx then
        match nextToken lx with
        | (Except.ok token, lx1) =>
          let rest := lexLoopF (utf8Len lx1.sourceCode + 1) lx1
          (token :: rest.1, rest.2)
        | (Except.error e, lx1) =>
          let rest := lexLoopF (utf8Len lx1.sourceCode + 1) lx1
          (rest.1, e :: rest.2)
      else ([], []) := by
  by_cases hc : hasCharactersToLex lx = true
  case neg =>
    have hcf : hasCharactersToLex lx = false := by
      simpa using hc
    simp [lexLoopF, hcf]
  case pos =>
    have hstep : lexLoopF (utf8Len lx.sourceCode + 1) lx =
        if hasCharactersToLex lx then
          match nextToken lx with
          | (Except.ok token, lx1) =>
            let rest := lexLoopF (utf8Len lx.sourceCode) lx1
            (token :: rest.1, rest.2)
          | (Except.error e, lx1) =>
            let rest := lexLoopF (utf8Len lx.sourceCode) lx1
            (rest.1, e :: rest.2)
        else ([], []) := rfl
    rw [hstep, if_pos hc, if_pos hc]
    rcases hnt : nextToken lx with ⟨res, lx1⟩
    have hst := nextToken_state lx
    rw [hnt] at hst
    dsimp only at hst
    have hrec := lexLoopF_stable (utf8Len lx.sourceCode)
      (utf8Len lx1.sourceCode + 1) lx1 (by rw [hst.1]; omega) (by rw [hst.1]; omega)
    cases res <;> dsimp only <;> rw [hrec]

theorem new_position (s : String) : (LexLuthor.new s).position = 1 := by
  unfold LexLuthor.new
  rw [readCharacter_position]

/-- The code's identifier-shape check equals the spec-side left-to-right
first-violation scan. -/
theorem identCheck_eq_spec : ∀ l : List Char, identCheck l = specFirstViolation l := by
  intro l
  induction l with
  | nil => rfl
  | cons c rest ih =>
    have hspec : specFirstViolation (c :: rest) =
        if violatesIdentifierShape c rest.head? = true then some c
        else specFirstViolation rest := by
      unfold specFirstViolation
      rw [show nextOf (c :: rest) = (c, rest.head?) :: nextOf rest from rfl]
      cases hv : violatesIdentifierShape c rest.head? with
      | true =>
        rw [List.find?_cons_of_pos (nextOf rest)
          (show (fun p => violatesIdentifierShape p.1 p.2) ((c, rest.head?)) = true
            from hv), if_pos rfl]
        rfl
      | false =>
        rw [List.find?_cons_of_neg (nextOf rest)
          (show ¬ (fun p => violatesIdentifierShape p.1 p.2) ((c, rest.head?)) = true
            from by simp [hv]), if_neg (by simp)]
    rw [hspec]
    show (if violatesIdentifierShape c rest.head? = true then some c
        else identCheck rest) = _
    cases hv : violatesIdentifierShape c rest.head? <;> simp [hv, ih]

/-! ### Claim theorems -/

/-- C1: the claim states that for the input `"!="`, `lex` returns `Ok` of
exactly one `NotEqual` token at `{line 1, column 2}` followed by `Eof`,
both characters being consumed by that single token.  The code does not do
this: the `'!' if next_character_is('=')` arm (line 150) lacks the inner
`read_character` that the other two-character arms perform, so the span
stays at column 1 and the `=` is re-tokenized as an `Equal` token.  This
theorem evaluates the code at the failing input. -/
theorem c1_notEqual_leaves_spurious_equal :
    lex "!=" = Except.ok
      [Token.NotEqual ⟨1, 1⟩, Token.Equal ⟨1, 2⟩, Token.Eof] := by rfl

/-- C2: the claim states that an `Identifier` token's text is exactly the
maximal alphanumeric-or-underscore run, e.g. `"x y"` lexes to
`Identifier("x")`, `Identifier("y")`, `Eof`.  The code instead extracts
`chars().skip(start).take(position - start)` (line 91), and after the run
loop `position` is one past the delimiter character, so the extracted text
includes the delimiter: `"x y"` yields `Identifier("x ")` — the run plus
the following space.  This theorem evaluates the code at the failing
input. -/
theorem c2_identifier_text_includes_delimiter :
    lex "x y" = Except.ok
      [Token.Identifier "x " ⟨1, 2⟩, Token.Identifier "y" ⟨1, 3⟩,
        Token.Eof] := by rfl

/-- C3: the claim states that each reserved word with any surrounding
ASCII whitespace lexes to its keyword token and never to `Identifier`.
This holds with no or leading whitespace, but a trailing space is captured
into the candidate text by the extraction off-by-one of line 91, so
`"not "` is matched against the keyword table as `"not "` and falls
through to `Identifier`.  This theorem evaluates the code at the failing
input alongside the two conforming inputs. -/
theorem c3_keyword_trailing_space_becomes_identifier :
    lex "not" = Except.ok [Token.Not ⟨1, 3⟩, Token.Eof] ∧
    lex " not" = Except.ok [Token.Not ⟨1, 4⟩, Token.Eof] ∧
    lex "not " = Except.ok [Token.Identifier "not " ⟨1, 4⟩, Token.Eof] :=
  ⟨rfl, rfl, rfl⟩

/-- C4: the claim states that whitespace-only inputs lex to `Ok([Eof])`,
trailing whitespace is harmless, and no `UnexpectedCharacter` error is
ever produced for the null sentinel.  Only the empty input conforms:
`next_token` has no arm for the `' '` sentinel, so whenever the scan
loop's extra iteration runs after trailing whitespace the sentinel falls
into the catch-all arm and an `UnexpectedCharacter` error for `' '` is
emitted.  This theorem evaluates the code on the conforming inputs and the
failing inputs. -/
theorem c4_trailing_whitespace_sentinel_error :
    lex "" = Except.ok [Token.Eof] ∧
    lex "+" = Except.ok [Token.Plus ⟨1, 1⟩, Token.Eof] ∧
    lex " " = Except.error
      [LexLuthorError.UnexpectedCharacter ⟨1, 1⟩ "unexpected character  "] ∧
    lex "+ " = Except.error
      [LexLuthorError.UnexpectedCharacter ⟨1, 2⟩ "unexpected character  "] :=
  ⟨rfl, rfl, rfl, rfl⟩

/-- C5 counterexample: the claim states that `"!"` lexes to the same token
variant `Not` that the keyword `not` produces; in the code line 169
produces the distinct variant `Token::Bang`, so the claimed result is
false. -/
theorem c5_bang_counterexample :
    lex "!" ≠ Except.ok [Token.Not ⟨1, 1⟩, Token.Eof] := by
  intro h
  rw [show lex "!" = Except.ok [Token.Bang ⟨1, 1⟩, Token.Eof] from rfl] at h
  simp at h

/-- C5 amended: for the input `"!"`, `lex` returns
`Ok([Bang {line 1, column 1}, Eof])`, and `Bang` is a token variant
distinct from `Not`, the variant produced for the keyword `not`. -/
theorem c5_bang_lexes_as_bang :
    lex "!" = Except.ok [Token.Bang ⟨1, 1⟩, Token.Eof] ∧
    (∀ sp sp2 : SourceSpan, Token.Bang sp ≠ Token.Not sp2) :=
  ⟨rfl, fun _ _ h => Token.noConfusion h⟩

/-- C6: for every input, `lex` is all-or-nothing — it returns `Err` of a
non-empty error list (and surfaces no tokens), or `Ok` of the collected
tokens with exactly one `Eof` appended as the final element, `Eof`
occurring nowhere else. -/
theorem c6_lex_all_or_nothing (s : String) :
    (∃ errs, lex s = Except.error errs ∧ errs ≠ []) ∨
    (∃ tokens, lex s = Except.ok (tokens ++ [Token.Eof]) ∧
      Token.Eof ∉ tokens) := by
  unfold lex
  by_cases h :
      (lexLoopF (utf8Len (LexLuthor.new s).sourceCode + 1) (LexLuthor.new s)).2.isEmpty = true
  · right
    refine ⟨(lexLoopF (utf8Len (LexLuthor.new s).sourceCode + 1) (LexLuthor.new s)).1,
      ?_, lexLoopF_eof_not_mem _ _⟩
    simp only [h, if_pos]
  · left
    refine ⟨(lexLoopF (utf8Len (LexLuthor.new s).sourceCode + 1) (LexLuthor.new s)).2,
      ?_, ?_⟩
    · simp only [h, if_neg]
      simp [h]
    · intro hnil
      apply h
      rw [hnil]
      rfl

/-- C7: each of the four two-character operator inputs lexes to exactly
one corresponding token at `{line 1, column 2}` — the position of the
operator's second character — followed by `Eof`. -/
theorem c7_two_char_operator_spans :
    lex "**" = Except.ok [Token.StarStar ⟨1, 2⟩, Token.Eof] ∧
    lex "%%" = Except.ok [Token.PercentPercent ⟨1, 2⟩, Token.Eof] ∧
    lex "<=" = Except.ok [Token.LessThanOrEqual ⟨1, 2⟩, Token.Eof] ∧
    lex ">=" = Except.ok [Token.GreaterThanOrEqual ⟨1, 2⟩, Token.Eof] :=
  ⟨rfl, rfl, rfl, rfl⟩

/-- C8: the identifier-shape validation scans the candidate left to right
and reports the first digit-or-underscore not immediately followed by an
alphabetic character (proved as the equality of the code's check with the
spec-side first-violation scan), and the eight concrete inputs of the
claim behave exactly as stated — valid runs lex as `Identifier`, invalid
ones produce exactly one `InvalidIdentifier` error citing the whole
candidate text and the first offending character. -/
theorem c8_identifier_shape_validation :
    (∀ l : List Char, identCheck l = specFirstViolation l) ∧
    lex "x" = Except.ok [Token.Identifier "x" ⟨1, 1⟩, Token.Eof] ∧
    lex "_" = Except.ok [Token.Identifier "_" ⟨1, 1⟩, Token.Eof] ∧
    lex "_x" = Except.ok [Token.Identifier "_x" ⟨1, 2⟩, Token.Eof] ∧
    lex "x2y_z2w" =
      Except.ok [Token.Identifier "x2y_z2w" ⟨1, 7⟩, Token.Eof] ∧
    lex "x2" = Except.error [LexLuthorError.InvalidIdentifier ⟨1, 2⟩
      "x2 is not a valid identifier, 2 must be followed by a letter"] ∧
    lex "x__" = Except.error [LexLuthorError.InvalidIdentifier ⟨1, 3⟩
      "x__ is not a valid identifier, _ must be followed by a letter"] ∧
    lex "__" = Except.error [LexLuthorError.InvalidIdentifier ⟨1, 2⟩
      "__ is not a valid identifier, _ must be followed by a letter"] ∧
    lex "__variable_name" =
      Except.error [LexLuthorError.InvalidIdentifier ⟨1, 15⟩
        "__variable_name is not a valid identifier, _ must be followed by a letter"] :=
  ⟨identCheck_eq_spec, rfl, rfl, rfl, rfl, rfl, rfl, rfl, rfl⟩

/-- C9 counterexample: the claim states that an unrecognized character at
position `k` yields an error whose span is column `k`, e.g. the `?` of
`"?+"` yields span `{line 1, column 1}`; the code records the span after
advancing past the character (line 177 before line 179), so `"?+"`
reports column 2, not column 1. -/
theorem c9_span_counterexample :
    lex "?+" ≠ Except.error
      [LexLuthorError.UnexpectedCharacter ⟨1, 1⟩ "unexpected character ?"] := by
  intro h
  rw [show lex "?+" = Except.error
      [LexLuthorError.UnexpectedCharacter ⟨1, 2⟩ "unexpected character ?"]
    from rfl] at h
  simp at h

/-- C9 amended: every unrecognized character yields an
`UnexpectedCharacter` error at the post-advance position, and scanning
continues past it.  The first conjunct states this for every scanner
state: whenever the current character after whitespace-skipping matches no
lexical rule, `next_token` returns the `UnexpectedCharacter` error whose
span is `current_source_span` after one `read_character` (the character's
own position at end of input, the following character's position
otherwise), whose message names the character, and whose resulting state
is the advanced one — from which the scan loop carries on, so later
invalid characters are also reported.  The concrete conjuncts instantiate
this: `"?"` and `"+-=/    ?"` report the character's own column, `"?+"`
reports column 2, and `"??"` yields two errors. -/
theorem c9_post_advance_error_spans :
    (∀ lx : LexLuthor,
      isUnrecognizedCharacter (skipWhitespace lx).character = true →
      nextToken lx =
        (Except.error (LexLuthorError.UnexpectedCharacter
            (currentSourceSpan (readCharacter (skipWhitespace lx)))
            ("unexpected character " ++
              (skipWhitespace lx).character.toString)),
          readCharacter (skipWhitespace lx))) ∧
    lex "?" = Except.error
      [LexLuthorError.UnexpectedCharacter ⟨1, 1⟩ "unexpected character ?"] ∧
    lex "?+" = Except.error
      [LexLuthorError.UnexpectedCharacter ⟨1, 2⟩ "unexpected character ?"] ∧
    lex "??" = Except.error
      [LexLuthorError.UnexpectedCharacter ⟨1, 2⟩ "unexpected character ?",
        LexLuthorError.UnexpectedCharacter ⟨1, 2⟩ "unexpected character ?"] ∧
    lex "+-=/    ?" = Except.error
      [LexLuthorError.UnexpectedCharacter ⟨1, 9⟩ "unexpected character ?"] := by
  refine ⟨?_, rfl, rfl, rfl, rfl⟩
  intro lx h
  show nextTokenAux (skipWhitespace lx) = _
  unfold nextTokenAux
  split
  all_goals try (rename_i heq; rw [heq] at h; exact absurd h (by decide))
  -- the catch-all arm: the identifier test is ruled out by `h`
  have hcondf : ¬ ((isAlphabetic (skipWhitespace lx).character ||
      (skipWhitespace lx).character = '_') = true) := by
    intro hcond
    have hfalse :
        isUnrecognizedCharacter (skipWhitespace lx).character = false := by
      simp only [isUnrecognizedCharacter]
      simp only [Bool.or_eq_true] at hcond
      rcases hcond with hcond | hcond <;> simp [hcond]
    rw [h] at hfalse
    cases hfalse
  rw [if_neg hcondf]

/-- C9 witness: the general conjunct of `c9_post_advance_error_spans`
applied at the concrete scanner state for the input `"?+"`, where the
unrecognized `?` at column 1 is reported at the post-advance position,
column 2. -/
theorem c9_post_advance_error_spans_witness :
    isUnrecognizedCharacter (skipWhitespace (LexLuthor.new "?+")).character = true ∧
    nextToken (LexLuthor.new "?+") =
      (Except.error (LexLuthorError.UnexpectedCharacter ⟨1, 2⟩
          "unexpected character ?"),
        readCharacter (skipWhitespace (LexLuthor.new "?+"))) :=
  ⟨by decide,
    c9_post_advance_error_spans.1 (LexLuthor.new "?+") (by decide)⟩

/-- C10: the scan-loop bound compares the character-count cursor with the
byte length of the source, so the single two-byte character `"¡"` admits
two loop iterations: the first reports the `¡` itself, the second reports
a spurious `UnexpectedCharacter` for the null end-of-input sentinel. -/
theorem c10_multibyte_sentinel_two_errors :
    lex "¡" = Except.error
      [LexLuthorError.UnexpectedCharacter ⟨1, 1⟩ "unexpected character ¡",
        LexLuthorError.UnexpectedCharacter ⟨1, 1⟩
          "unexpected character  "] := by rfl

end LexLuthorSpec
